import Mathlib

/-!
Verification development for the polymarket-arbitrage-bot repository.

The TypeScript sources are shallowly embedded into Lean:
  prices and amounts (JS numbers) become rationals, timestamps (millisecond
  Date values) become naturals, JS Maps become insertion-ordered association
  lists, and the nondeterministic parts (uuid generation, Math.random in the
  simulated order submission) become an explicit fresh-id counter and an
  explicit success oracle.  Every definition mirrors the corresponding
  TypeScript function; deviations forced by the embedding are noted in the
  doc comment of the definition concerned.
-/

/-! ### Basic data model (src/models/Market.ts, src/models/Trade.ts) -/

/-- Strategy tags of ArbitrageType in src/models/Market.ts. -/
inductive ArbitrageType where
  | COMPLEMENTARY
  | CROSS_MARKET
  | MISPRICING
  | TEMPORAL
deriving DecidableEq, Repr

/-- Trade status enum from src/models/Trade.ts. -/
inductive TradeStatus where
  | PENDING
  | EXECUTED
  | FAILED
  | CANCELLED
deriving DecidableEq, Repr

/-- Trade side enum from src/models/Trade.ts. -/
inductive TradeType where
  | BUY
  | SELL
deriving DecidableEq, Repr

/-- MarketPrice record from src/models/Market.ts; JS numbers are modelled as
rationals, the Date field as a natural number of milliseconds. -/
structure MarketPrice where
  marketId : String
  outcome : String
  bidPrice : ℚ
  askPrice : ℚ
  lastPrice : ℚ
  timestamp : ℕ
deriving DecidableEq, Repr

/-- Market record from src/models/Market.ts. -/
structure Market where
  id : String
  question : String
  description : String
  endDate : ℕ
  outcomes : List String
  active : Bool
  volume : ℚ
  liquidity : ℚ
deriving DecidableEq, Repr

/-- ArbitrageOpportunity record from src/models/Market.ts.  The random uuid
field id is not modelled: the detector stores opportunities in a Map keyed by
the (always fresh) uuid, which behaves exactly like appending to a list, and
no other code reads the id. -/
structure ArbitrageOpportunity where
  marketId : String
  type : ArbitrageType
  buyOutcome : String
  sellOutcome : String
  buyPrice : ℚ
  sellPrice : ℚ
  expectedProfit : ℚ
  profitPercentage : ℚ
  confidence : ℚ
  timestamp : ℕ
  expiresAt : Option ℕ
  requiredCapital : ℚ
  estimatedSlippage : ℚ
  riskScore : ℚ
deriving DecidableEq, Repr

/-- Trade record from src/models/Trade.ts; the uuid id is modelled as a
natural number drawn from a fresh counter (uuids are globally unique, and the
code only ever compares ids for equality). -/
structure Trade where
  id : ℕ
  marketId : String
  outcome : String
  type : TradeType
  amount : ℚ
  price : ℚ
  status : TradeStatus
  txHash : Option String
  createdAt : ℕ
  executedAt : Option ℕ
  profit : Option ℚ
  error : Option String
deriving DecidableEq, Repr

/-- Position record from src/models/Trade.ts. -/
structure Position where
  marketId : String
  outcome : String
  quantity : ℚ
  averagePrice : ℚ
  currentPrice : ℚ
  unrealizedPnL : ℚ
  realizedPnL : ℚ
deriving DecidableEq, Repr

/-! ### Insertion-ordered map (the JS Map objects used by the services)

A JS Map keeps keys unique and preserves insertion order; setting an existing
key overwrites its value in place.  We model it as an association list. -/

/-- Map.get: first binding of the key, if any. -/
def mapLookup {κ α : Type} [DecidableEq κ] (k : κ) : List (κ × α) → Option α
  | [] => none
  | (k2, v) :: rest => if k2 = k then some v else mapLookup k rest

/-- Map.set: overwrite the existing binding in place, else append. -/
def mapSet {κ α : Type} [DecidableEq κ] (k : κ) (v : α) : List (κ × α) → List (κ × α)
  | [] => [(k, v)]
  | (k2, v2) :: rest => if k2 = k then (k, v) :: rest else (k2, v2) :: mapSet k v rest

theorem mapLookup_mapSet {κ α : Type} [DecidableEq κ] (k : κ) (v : α)
    (m : List (κ × α)) : mapLookup k (mapSet k v m) = some v := by
  induction m with
  | nil => simp [mapSet, mapLookup]
  | cons kv rest ih =>
    by_cases h : kv.1 = k
    · simp [mapSet, mapLookup, h]
    · simpa [mapSet, mapLookup, h] using ih

/-! ### Configuration (src/config/config.ts is not part of the corpus)

Modelled from the spec: the configuration module is described in the spec as
external numeric knobs (minimum profit threshold, max position size, max total
exposure, max slippage, trading-enabled flag) read once at startup; the
repository README documents the defaults MIN_PROFIT_THRESHOLD = 0.02,
MAX_POSITION_SIZE = 100, MAX_TOTAL_EXPOSURE = 1000, TRADING_ENABLED = false,
and the detector source comments give max slippage as, e.g., 1 percent.  All
detector definitions take the configuration as an explicit parameter. -/
structure BotConfig where
  minProfitThreshold : ℚ
  maxSlippage : ℚ
  maxPositionSize : ℚ
  maxTotalExposure : ℚ
deriving DecidableEq, Repr

/-- Modelled from the spec: the default configuration values from the README
configuration table and the source comment for max slippage. -/
def defaultConfig : BotConfig :=
  { minProfitThreshold := 0.02
    maxSlippage := 0.01
    maxPositionSize := 100
    maxTotalExposure := 1000 }

/-! ### ArbitrageDetector (duplicated source file, symbol ArbitrageDetector) -/

/-- Fixed minimum confidence of the detector (field minConfidence = 0.6). -/
def minConfidence : ℚ := 0.6

/-- Time the detector remembers opportunities, ms (field opportunityTTL). -/
def opportunityTTL : ℕ := 60000

/-- The reduce computing totalCost: sum of ask prices, accumulator style. -/
def askSum (prices : List MarketPrice) : ℚ :=
  prices.foldl (fun s p => s + p.askPrice) 0

/-- The reduce computing totalBidPrice in the temporal strategy. -/
def bidSum (prices : List MarketPrice) : ℚ :=
  prices.foldl (fun s p => s + p.bidPrice) 0

/-- The avgSpread local: mean of askPrice - bidPrice over the quote list. -/
def avgSpreadOf (prices : List MarketPrice) : ℚ :=
  prices.foldl (fun s p => s + (p.askPrice - p.bidPrice)) 0 / (prices.length : ℚ)

/-- ArbitrageDetector.calculateConfidence. -/
def calculateConfidence (avgSpread : ℚ) (prices : List MarketPrice) : ℚ :=
  let spreadFactor := max 0.5 (1 - avgSpread * 5)
  let outcomesFactor := max 0.8 (1 - ((prices.length : ℚ) - 2) * 0.1)
  min 1 (spreadFactor * outcomesFactor)

/-- ArbitrageDetector.calculateRiskScore. -/
def calculateRiskScore (cfg : BotConfig) (requiredCapital avgSpread : ℚ)
    (_prices : List MarketPrice) : ℚ :=
  let capitalRisk := min 1 (requiredCapital / cfg.maxPositionSize)
  let spreadRisk := min 1 (avgSpread * 10)
  let overallRisk := (capitalRisk + spreadRisk) / 2
  max 0 (min 1 overallRisk)

/-- JS join with separator " + " (Array.prototype.join as used for
buyOutcome and sellOutcome strings). -/
def joinPlus : List String → String
  | [] => ""
  | [a] => a
  | a :: rest => a ++ " + " ++ joinPlus rest

/-- ArbitrageDetector.detectComplementaryArbitrage: the binary branch and the
multi-outcome branch, both building the same numbers but different buyOutcome
labels.  The uuid and the two new Date() values become the now parameter. -/
def detectComplementaryArbitrage (cfg : BotConfig) (marketId : String)
    (prices : List MarketPrice) (now : ℕ) : Option ArbitrageOpportunity :=
  if prices.length = 2 then
    let totalCost := askSum prices
    if totalCost < 1 then
      let profit := 1 - totalCost
      let profitPercentage := profit / totalCost
      let avgSpread := avgSpreadOf prices
      let confidence := calculateConfidence avgSpread prices
      let estimatedSlippage := avgSpread / 2
      let riskScore := calculateRiskScore cfg totalCost avgSpread prices
      some { marketId
             type := ArbitrageType.COMPLEMENTARY
             buyOutcome := joinPlus (prices.map (fun p => p.outcome))
             sellOutcome := "N/A"
             buyPrice := totalCost
             sellPrice := 1
             expectedProfit := profit
             profitPercentage
             confidence
             timestamp := now
             expiresAt := some (now + 30000)
             requiredCapital := totalCost
             estimatedSlippage
             riskScore }
    else none
  else if 2 < prices.length then
    let totalCost := askSum prices
    if totalCost < 1 then
      let profit := 1 - totalCost
      let profitPercentage := profit / totalCost
      let avgSpread := avgSpreadOf prices
      let confidence := calculateConfidence avgSpread prices
      let estimatedSlippage := avgSpread / 2
      let riskScore := calculateRiskScore cfg totalCost avgSpread prices
      some { marketId
             type := ArbitrageType.COMPLEMENTARY
             buyOutcome := "All " ++ Nat.repr prices.length ++ " outcomes"
             sellOutcome := "N/A"
             buyPrice := totalCost
             sellPrice := 1
             expectedProfit := profit
             profitPercentage
             confidence
             timestamp := now
             expiresAt := some (now + 30000)
             requiredCapital := totalCost
             estimatedSlippage
             riskScore }
    else none
  else none

/-- ArbitrageDetector.detectMispricing: one opportunity per quote whose bid
exceeds its ask; the for-of push loop is a filterMap. -/
def detectMispricing (marketId : String) (prices : List MarketPrice)
    (now : ℕ) : List ArbitrageOpportunity :=
  prices.filterMap fun price =>
    if price.askPrice < price.bidPrice then
      some { marketId
             type := ArbitrageType.MISPRICING
             buyOutcome := price.outcome
             sellOutcome := price.outcome
             buyPrice := price.askPrice
             sellPrice := price.bidPrice
             expectedProfit := price.bidPrice - price.askPrice
             profitPercentage := (price.bidPrice - price.askPrice) / price.askPrice
             confidence := 0.9
             timestamp := now
             expiresAt := some (now + 10000)
             requiredCapital := price.askPrice
             estimatedSlippage := 0.001
             riskScore := 0.1 }
    else none

/-- ArbitrageDetector.detectTemporalArbitrage (binary markets only). -/
def detectTemporalArbitrage (marketId : String) (prices : List MarketPrice)
    (now : ℕ) : List ArbitrageOpportunity :=
  if prices.length = 2 then
    let totalBidPrice := bidSum prices
    if 1 < totalBidPrice then
      let profit := totalBidPrice - 1
      let avgSpread := avgSpreadOf prices
      let confidence := max 0.3 (calculateConfidence avgSpread prices * 0.6)
      [{ marketId
         type := ArbitrageType.TEMPORAL
         buyOutcome := "N/A"
         sellOutcome := joinPlus (prices.map (fun p => p.outcome))
         buyPrice := 1
         sellPrice := totalBidPrice
         expectedProfit := profit
         profitPercentage := profit / 1
         confidence
         timestamp := now
         expiresAt := some (now + 60000)
         requiredCapital := 1
         estimatedSlippage := avgSpread * (1.5 : ℚ)
         riskScore := 0.7 }]
    else []
  else []

/-- ArbitrageDetector.isDuplicate over the recent-opportunity store. -/
def isDuplicate (recent : List ArbitrageOpportunity)
    (opportunity : ArbitrageOpportunity) : Bool :=
  recent.any fun r =>
    decide (r.marketId = opportunity.marketId ∧ r.type = opportunity.type ∧
      |r.profitPercentage - opportunity.profitPercentage| < 0.001)

/-- ArbitrageDetector.cleanupOldOpportunities: drop entries older than TTL. -/
def cleanupOldOpportunities (recent : List ArbitrageOpportunity)
    (now : ℕ) : List ArbitrageOpportunity :=
  recent.filter fun opp => decide (¬ opportunityTTL < now - opp.timestamp)

/-- The filter predicate of detectOpportunities: the four rejection tests in
source order (profit threshold, confidence, slippage, duplicate). -/
def keepOpp (cfg : BotConfig) (recent : List ArbitrageOpportunity)
    (opp : ArbitrageOpportunity) : Bool :=
  (!decide (opp.profitPercentage < cfg.minProfitThreshold)) &&
  (!decide (opp.confidence < minConfidence)) &&
  (!decide (cfg.maxSlippage < opp.estimatedSlippage)) &&
  (!isDuplicate recent opp)

/-- The candidate list of detectOpportunities: pushes from the three
strategies in source order. -/
def strategyCandidates (cfg : BotConfig) (marketId : String)
    (prices : List MarketPrice) (now : ℕ) : List ArbitrageOpportunity :=
  (match detectComplementaryArbitrage cfg marketId prices now with
    | some o => [o]
    | none => []) ++
  detectMispricing marketId prices now ++
  detectTemporalArbitrage marketId prices now

/-- ArbitrageDetector.detectOpportunities.  State in, state out: the first
component is the returned list, the second the recent-opportunity store after
the call (candidates filtered, sorted descending by profitPercentage,
remembered, then lazily pruned by TTL).  Array.prototype.sort with comparator
(a, b) => b.profitPercentage - a.profitPercentage is a stable descending sort,
modelled by mergeSort. -/
def detectOpportunities (cfg : BotConfig) (recent : List ArbitrageOpportunity)
    (prices : List MarketPrice) (now : ℕ) :
    List ArbitrageOpportunity × List ArbitrageOpportunity :=
  match prices with
  | [] => ([], recent)
  | p0 :: _ =>
    let opportunities := strategyCandidates cfg p0.marketId prices now
    let validOpportunities := opportunities.filter (keepOpp cfg recent)
    let sorted := validOpportunities.mergeSort
      (fun a b => decide (b.profitPercentage ≤ a.profitPercentage))
    let remembered := recent ++ sorted
    (sorted, cleanupOldOpportunities remembered now)

/-! ### String helpers used by the TradeExecutor

The executor parses buyOutcome / sellOutcome strings back into outcome lists
with includes, split and trim.  We model the exact JS semantics at the level
of the underlying character lists. -/

/-- JS String.prototype.includes with the one-character needle used by the
executor (the plus sign). -/
def jsIncludesPlus (s : String) : Bool := s.data.contains '+'

/-- Leftmost, non-overlapping scan of JS String.prototype.split with the
three-character separator (space, plus, space); cur is the reversed chunk
currently being accumulated. -/
def splitSepAux (cur : List Char) : List Char → List (List Char)
  | [] => [cur.reverse]
  | c :: rest =>
    match rest with
    | c2 :: c3 :: rest3 =>
      if c = ' ' ∧ c2 = '+' ∧ c3 = ' ' then cur.reverse :: splitSepAux [] rest3
      else splitSepAux (c :: cur) (c2 :: c3 :: rest3)
    | r => splitSepAux (c :: cur) r

/-- JS split on the separator used by the executor. -/
def jsSplitPlusSep (s : String) : List String :=
  (splitSepAux [] s.data).map fun l => ⟨l⟩

/-- The whitespace test of JS String.prototype.trim restricted to the
whitespace characters that can actually occur in outcome labels. -/
def isWsChar (c : Char) : Bool :=
  c = ' ' ∨ c = '\t' ∨ c = '\n' ∨ c = '\r'

/-- JS String.prototype.trim. -/
def jsTrim (s : String) : String :=
  ⟨((s.data.dropWhile isWsChar).reverse.dropWhile isWsChar).reverse⟩

/-- The outcome parsing at the top of createComplementaryTrades and
createTemporalTrades: split on the separator when a plus is present,
otherwise treat the whole string as a single outcome. -/
def parseOutcomesPlus (s : String) : List String :=
  if jsIncludesPlus s then jsSplitPlusSep s else [s]

/-! ### TradeExecutor (src/services/TradeExecutor.ts)

Math.random driven submission success becomes an explicit oracle (one Bool
per leg, indexed by leg position), the simulated network sleep is dropped
(it has no observable effect in the embedded state), and the random
transaction hashes become fixed placeholder strings. -/

/-- Maximum number of concurrent pending trades (field maxPendingTrades). -/
def maxPendingTrades : ℕ := 10

/-- Maximum retries for failed trades (field maxRetries). -/
def maxRetries : ℕ := 3

/-- The mutable executor state: pending and completed trade lists, the
per-trade-id retry counter map, and the fresh-id counter standing in for
uuid generation. -/
structure ExecState where
  pendingTrades : List Trade
  completedTrades : List Trade
  retryCount : List (ℕ × ℕ)
  nextId : ℕ
deriving DecidableEq, Repr

/-- The initial TradeExecutor state. -/
def initialExecState : ExecState :=
  { pendingTrades := [], completedTrades := [], retryCount := [], nextId := 0 }

/-- TradeExecutor.shouldRetry: false once the counter reached maxRetries,
otherwise true with the counter incremented. -/
def shouldRetry (retryCount : List (ℕ × ℕ)) (tradeId : ℕ) :
    Bool × List (ℕ × ℕ) :=
  let retries := (mapLookup tradeId retryCount).getD 0
  if maxRetries ≤ retries then (false, retryCount)
  else (true, mapSet tradeId (retries + 1) retryCount)

/-- TradeExecutor.createComplementaryTrades: parse the outcome list out of
buyOutcome, split the capital evenly, one pending Buy trade per parsed
outcome. -/
def createComplementaryTrades (opportunity : ArbitrageOpportunity)
    (now : ℕ) (startId : ℕ) : List Trade :=
  let outcomes := parseOutcomesPlus opportunity.buyOutcome
  let amountPerOutcome := opportunity.requiredCapital / (outcomes.length : ℚ)
  outcomes.enum.map fun ie =>
    { id := startId + ie.1
      marketId := opportunity.marketId
      outcome := jsTrim ie.2
      type := TradeType.BUY
      amount := amountPerOutcome
      price := opportunity.buyPrice / (outcomes.length : ℚ)
      status := TradeStatus.PENDING
      txHash := none
      createdAt := now
      executedAt := none
      profit := none
      error := none }

/-- TradeExecutor.createMispricingTrades: a Buy at the ask followed by a
Sell at the bid for the same outcome. -/
def createMispricingTrades (opportunity : ArbitrageOpportunity)
    (now : ℕ) (startId : ℕ) : List Trade :=
  [{ id := startId
     marketId := opportunity.marketId
     outcome := opportunity.buyOutcome
     type := TradeType.BUY
     amount := opportunity.requiredCapital
     price := opportunity.buyPrice
     status := TradeStatus.PENDING
     txHash := none
     createdAt := now
     executedAt := none
     profit := none
     error := none },
   { id := startId + 1
     marketId := opportunity.marketId
     outcome := opportunity.sellOutcome
     type := TradeType.SELL
     amount := opportunity.requiredCapital
     price := opportunity.sellPrice
     status := TradeStatus.PENDING
     txHash := none
     createdAt := now
     executedAt := none
     profit := none
     error := none }]

/-- TradeExecutor.createTemporalTrades: one Sell leg per parsed outcome of
sellOutcome, capital split evenly. -/
def createTemporalTrades (opportunity : ArbitrageOpportunity)
    (now : ℕ) (startId : ℕ) : List Trade :=
  let outcomes := parseOutcomesPlus opportunity.sellOutcome
  let amountPerOutcome := opportunity.requiredCapital / (outcomes.length : ℚ)
  outcomes.enum.map fun ie =>
    { id := startId + ie.1
      marketId := opportunity.marketId
      outcome := jsTrim ie.2
      type := TradeType.SELL
      amount := amountPerOutcome
      price := opportunity.sellPrice / (outcomes.length : ℚ)
      status := TradeStatus.PENDING
      txHash := none
      createdAt := now
      executedAt := none
      profit := none
      error := none }

/-- TradeExecutor.simulateTrade: the single synthetic Executed trade produced
in dry-run mode. -/
def simulateTrade (opportunity : ArbitrageOpportunity) (now : ℕ)
    (tradeId : ℕ) : Trade :=
  { id := tradeId
    marketId := opportunity.marketId
    outcome := opportunity.buyOutcome
    type := TradeType.BUY
    amount := opportunity.requiredCapital
    price := opportunity.buyPrice
    status := TradeStatus.EXECUTED
    txHash := some "SIMULATED"
    createdAt := now
    executedAt := some now
    profit := some opportunity.expectedProfit
    error := none }

/-- TradeExecutor.executeIndividualTrade: the trade object is mutated to
Executed with a mock hash on oracle success, or to Failed with the simulated
error message. -/
def executeIndividualTrade (trade : Trade) (success : Bool) (now : ℕ) :
    Trade :=
  if success then
    { trade with status := TradeStatus.EXECUTED
                 executedAt := some now
                 txHash := some "0xmock" }
  else
    { trade with status := TradeStatus.FAILED
                 error := some "Simulated execution failure" }

/-- One iteration of the execution loop in TradeExecutor.executeTrade: the
trade is pushed onto pendingTrades, submitted, and then either moved to
completedTrades (success, or failure with retries exhausted) or left in
pendingTrades (failure with retries remaining, where the source only logs).
Because executeIndividualTrade mutates the shared trade object, the entry
sitting in pendingTrades after the iteration is the post-submission object,
modelled here by pushing the result.  Returns the state and this leg's
contribution to executedTrades. -/
def processLeg (st : ExecState) (trade : Trade) (success : Bool) (now : ℕ) :
    ExecState × List Trade :=
  let result := executeIndividualTrade trade success now
  let pending1 := st.pendingTrades ++ [result]
  if result.status = TradeStatus.EXECUTED then
    ({ st with
        pendingTrades := pending1.filter fun t => t.id != result.id
        completedTrades := st.completedTrades ++ [result] },
     [result])
  else
    let sr := shouldRetry st.retryCount trade.id
    if sr.1 then
      ({ st with pendingTrades := pending1, retryCount := sr.2 }, [])
    else
      ({ st with
          pendingTrades := pending1.filter fun t => t.id != trade.id
          completedTrades := st.completedTrades ++ [result]
          retryCount := sr.2 },
       [])

/-- The execution loop of TradeExecutor.executeTrade over the synthesized
legs; the oracle gives the submission outcome of the leg at each index. -/
def execLegs (st : ExecState) (trades : List Trade) (oracle : ℕ → Bool)
    (idx : ℕ) (now : ℕ) : ExecState × List Trade :=
  match trades with
  | [] => (st, [])
  | t :: rest =>
    let step := processLeg st t (oracle idx) now
    let tail := execLegs step.1 rest oracle (idx + 1) now
    (tail.1, step.2 ++ tail.2)

/-- TradeExecutor.executeTrade: dry-run short circuit, expiry check, pending
capacity check, leg synthesis by strategy (the switch default for
CROSS_MARKET returns no trades), then the execution loop. -/
def executeTrade (tradingEnabled : Bool) (st : ExecState)
    (opportunity : ArbitrageOpportunity) (now : ℕ) (oracle : ℕ → Bool) :
    ExecState × List Trade :=
  if tradingEnabled = false then
    ({ st with nextId := st.nextId + 1 },
     [simulateTrade opportunity now st.nextId])
  else if (match opportunity.expiresAt with
            | some e => decide (e < now)
            | none => false) then
    (st, [])
  else if maxPendingTrades ≤ st.pendingTrades.length then
    (st, [])
  else
    let trades :=
      match opportunity.type with
      | ArbitrageType.COMPLEMENTARY =>
        createComplementaryTrades opportunity now st.nextId
      | ArbitrageType.MISPRICING =>
        createMispricingTrades opportunity now st.nextId
      | ArbitrageType.TEMPORAL =>
        createTemporalTrades opportunity now st.nextId
      | ArbitrageType.CROSS_MARKET => []
    execLegs { st with nextId := st.nextId + trades.length } trades oracle 0 now

/-- TradeExecutor.getSuccessRate over the completed-trade list. -/
def getSuccessRate (completedTrades : List Trade) : ℚ :=
  if completedTrades.length = 0 then 0
  else
    ((completedTrades.filter fun t =>
        t.status == TradeStatus.EXECUTED).length : ℚ) /
      (completedTrades.length : ℚ)

/-! ### RiskManager (duplicated source file, symbol RiskManager) -/

/-- The mutable RiskManager state: the position map keyed by the
marketId-outcome string and the cached total exposure. -/
structure RiskState where
  positions : List (String × Position)
  totalExposure : ℚ
deriving DecidableEq, Repr

/-- The freshly constructed RiskManager. -/
def initialRiskState : RiskState := { positions := [], totalExposure := 0 }

/-- The reduce inside RiskManager.updateTotalExposure: sum of
quantity times averagePrice over the position map values. -/
def exposureFold (positions : List (String × Position)) : ℚ :=
  positions.foldl (fun s kp => s + kp.2.quantity * kp.2.averagePrice) 0

/-- RiskManager.updatePosition followed by the private updateTotalExposure
call: merge the fill into the keyed position (volume-weighted average
price), or create it, then recompute the cached total exposure. -/
def updatePosition (st : RiskState) (marketId outcome : String)
    (quantity price : ℚ) : RiskState :=
  let key := marketId ++ "-" ++ outcome
  let positions2 :=
    match mapLookup key st.positions with
    | some existing =>
      let totalQuantity := existing.quantity + quantity
      let averagePrice :=
        (existing.averagePrice * existing.quantity + price * quantity) /
          totalQuantity
      mapSet key
        { existing with quantity := totalQuantity, averagePrice := averagePrice }
        st.positions
    | none =>
      mapSet key
        { marketId := marketId
          outcome := outcome
          quantity := quantity
          averagePrice := price
          currentPrice := price
          unrealizedPnL := 0
          realizedPnL := 0 }
        st.positions
  { positions := positions2, totalExposure := exposureFold positions2 }

/-- RiskManager.getTotalExposure: the cached field. -/
def getTotalExposure (st : RiskState) : ℚ := st.totalExposure

/-- A whole sequence of recorded fills applied to the fresh RiskManager,
each fill being (marketId, outcome, quantity, price). -/
def applyFills (fills : List (String × String × ℚ × ℚ)) : RiskState :=
  fills.foldl
    (fun st f => updatePosition st f.1 f.2.1 f.2.2.1 f.2.2.2)
    initialRiskState

/-- The exposure recomputed from scratch, as the spec words it: the sum over
all positions of quantity times averagePrice. -/
def exposureSum (positions : List (String × Position)) : ℚ :=
  (positions.map fun kp => kp.2.quantity * kp.2.averagePrice).sum

/-! ### The executor next to the risk ledger

The repository wires TradeExecutor and RiskManager as two independent
components of one application (src/index.ts): no call path of
TradeExecutor.executeTrade reaches RiskManager, so executing a trade leaves
the ledger component of the combined state untouched. -/

/-- The combined application state relevant to trade execution. -/
structure SystemState where
  exec : ExecState
  risk : RiskState
deriving DecidableEq, Repr

/-- TradeExecutor.executeTrade as seen from the whole application: the
executor state evolves, the risk ledger is not referenced by any statement
of executeTrade or its callees. -/
def systemExecuteTrade (tradingEnabled : Bool) (sys : SystemState)
    (opportunity : ArbitrageOpportunity) (now : ℕ) (oracle : ℕ → Bool) :
    SystemState × List Trade :=
  let r := executeTrade tradingEnabled sys.exec opportunity now oracle
  ({ exec := r.1, risk := sys.risk }, r.2)

/-! ### MarketStateTracker (duplicated source file, symbol
MarketStateTracker)

The source stores volatility as Math.sqrt of the computed variance.  Square
roots of rationals are in general irrational, so the embedded state stores
the variance itself in the field volatilitySq; the square root map is
strictly monotone and injective on the nonnegative reals, hence every
equality or inequality between volatilities holds exactly when it holds
between the stored squares. -/

/-- MarketState record of the tracker. -/
structure MarketState where
  market : Market
  prices : List MarketPrice
  priceHistory : List (List MarketPrice)
  lastUpdate : ℕ
  updateCount : ℕ
  averageSpread : ℚ
  volatilitySq : ℚ
deriving DecidableEq, Repr

/-- History capacity (field maxHistoryLength). -/
def maxHistoryLength : ℕ := 100

/-- MarketStateTracker.calculateAverageSpread. -/
def calculateAverageSpread (prices : List MarketPrice) : ℚ :=
  if prices.length = 0 then 0
  else
    let spreads := prices.map fun p => p.askPrice - p.bidPrice
    spreads.foldl (fun s spread => s + spread) 0 / (spreads.length : ℚ)

/-- The nested push loop flattening every lastPrice of the retained
history, in order. -/
def allLastPrices (priceHistory : List (List MarketPrice)) : List ℚ :=
  priceHistory.foldl
    (fun allPrices snapshot => allPrices ++ snapshot.map fun p => p.lastPrice)
    []

/-- MarketStateTracker.calculateVolatility squared: zero below two
snapshots, else the variance (mean of squared deviations from the mean) of
the flattened lastPrice sample.  The source returns Math.sqrt of this
value. -/
def calculateVolatilitySq (priceHistory : List (List MarketPrice)) : ℚ :=
  if priceHistory.length < 2 then 0
  else
    let allPrices := allLastPrices priceHistory
    let mean := allPrices.foldl (fun s p => s + p) 0 / (allPrices.length : ℚ)
    let variance :=
      allPrices.foldl (fun s p => s + (p - mean) ^ 2) 0 /
        (allPrices.length : ℚ)
    variance

/-- MarketStateTracker.updateMarket: append to (and possibly shift) the
history of a tracked market, or start tracking with a single-snapshot
history and zero volatility.  Returns the updated map and the state that the
method returns. -/
def updateMarket (states : List (String × MarketState)) (market : Market)
    (prices : List MarketPrice) (now : ℕ) :
    List (String × MarketState) × MarketState :=
  match mapLookup market.id states with
  | some existing =>
    let appended := existing.priceHistory ++ [prices]
    let priceHistory :=
      if maxHistoryLength < appended.length then appended.tail else appended
    let state : MarketState :=
      { market := market
        prices := prices
        priceHistory := priceHistory
        lastUpdate := now
        updateCount := existing.updateCount + 1
        averageSpread := calculateAverageSpread prices
        volatilitySq := calculateVolatilitySq priceHistory }
    (mapSet market.id state states, state)
  | none =>
    let state : MarketState :=
      { market := market
        prices := prices
        priceHistory := [prices]
        lastUpdate := now
        updateCount := 1
        averageSpread := calculateAverageSpread prices
        volatilitySq := 0 }
    (mapSet market.id state states, state)

/-- A sequence of updateMarket calls for one market applied to the fresh
tracker, each update being (quotes, time). -/
def applyUpdates (market : Market) (updates : List (List MarketPrice × ℕ)) :
    List (String × MarketState) :=
  updates.foldl (fun states u => (updateMarket states market u.1 u.2).1) []

/-- The sample variance of a list of values as the spec words it: squared
deviations from the mean, divided by the sample size minus one (Bessel
correction).  The square of the sample standard deviation named by the
spec. -/
def sampleVariance (xs : List ℚ) : ℚ :=
  let m := xs.sum / (xs.length : ℚ)
  (xs.map fun x => (x - m) ^ 2).sum / ((xs.length : ℚ) - 1)

/-- The population variance of a list of values: squared deviations from
the mean, divided by the sample size.  The square of the population
standard deviation. -/
def populationVariance (xs : List ℚ) : ℚ :=
  let m := xs.sum / (xs.length : ℚ)
  (xs.map fun x => (x - m) ^ 2).sum / (xs.length : ℚ)

/-- The flattened lastPrice sample of a history, written spec style with
map and join. -/
def flatLastPrices (priceHistory : List (List MarketPrice)) : List ℚ :=
  (priceHistory.map fun snapshot => snapshot.map fun p => p.lastPrice).flatten

/-! ### Shared helper lemmas -/

theorem foldl_add_map {α : Type} (g : α → ℚ) :
    ∀ (l : List α) (a : ℚ), l.foldl (fun s x => s + g x) a = a + (l.map g).sum
  | [], a => by simp
  | x :: rest, a => by
    rw [List.foldl_cons, foldl_add_map g rest (a + g x)]
    simp [List.map_cons, List.sum_cons]
    ring

/-- The cached exposure written by updateTotalExposure equals the spec-side
sum over the position map. -/
theorem exposureFold_eq_exposureSum (positions : List (String × Position)) :
    exposureFold positions = exposureSum positions := by
  unfold exposureFold exposureSum
  rw [foldl_add_map (fun kp => kp.2.quantity * kp.2.averagePrice) positions 0]
  simp

/-! ### Claim C5 -/

/-- Claim C5.  Exposure invariant: after every sequence of recorded fills, the
value returned by getTotalExposure equals the sum over all stored positions
of quantity times averagePrice; the cached total never drifts from the
recomputed sum. -/
theorem c5_exposure_no_drift (fills : List (String × String × ℚ × ℚ)) :
    getTotalExposure (applyFills fills) =
      exposureSum (applyFills fills).positions := by
  suffices h : ∀ (fs : List (String × String × ℚ × ℚ)) (st : RiskState),
      getTotalExposure st = exposureSum st.positions →
      getTotalExposure (fs.foldl
        (fun st f => updatePosition st f.1 f.2.1 f.2.2.1 f.2.2.2) st) =
        exposureSum ((fs.foldl
          (fun st f => updatePosition st f.1 f.2.1 f.2.2.1 f.2.2.2) st)).positions by
    exact h fills initialRiskState (by simp [initialRiskState, getTotalExposure, exposureSum])
  intro fs
  induction fs with
  | nil => intro st h; simpa using h
  | cons f rest ih =>
    intro st _
    apply ih
    show (updatePosition st f.1 f.2.1 f.2.2.1 f.2.2.2).totalExposure = _
    rw [show (updatePosition st f.1 f.2.1 f.2.2.1 f.2.2.2).totalExposure =
          exposureFold (updatePosition st f.1 f.2.1 f.2.2.1 f.2.2.2).positions from rfl]
    exact exposureFold_eq_exposureSum _

/-! ### Claim C10 -/

/-- Claim C10.  getSuccessRate is total: zero on the empty completed set rather
than a division by zero, otherwise the count of Executed completed trades
divided by the count of all completed trades, and always within the unit
interval. -/
theorem c10_success_rate_total (completedTrades : List Trade) :
    0 ≤ getSuccessRate completedTrades ∧ getSuccessRate completedTrades ≤ 1 ∧
    (completedTrades = [] → getSuccessRate completedTrades = 0) ∧
    (completedTrades ≠ [] →
      getSuccessRate completedTrades =
        ((completedTrades.filter fun t =>
            t.status == TradeStatus.EXECUTED).length : ℚ) /
          (completedTrades.length : ℚ)) := by
  unfold getSuccessRate
  by_cases h : completedTrades.length = 0
  · simp [h, List.length_eq_zero.mp h]
  · have hpos : 0 < (completedTrades.length : ℚ) := by
      exact_mod_cast Nat.pos_of_ne_zero h
    have hle : ((completedTrades.filter fun t =>
        t.status == TradeStatus.EXECUTED).length : ℚ) ≤ (completedTrades.length : ℚ) := by
      exact_mod_cast List.length_filter_le _ _
    refine ⟨?_, ?_, ?_, ?_⟩
    · simp only [h, if_false]
      positivity
    · simp only [h, if_false]
      exact div_le_one_of_le₀ hle (le_of_lt hpos)
    · intro he; exact absurd (by simp [he]) h
    · intro _; simp [h]

/-- Witness for C10 at a concrete executed trade and at the empty list. -/
def demoTrade : Trade :=
  { id := 0, marketId := "m", outcome := "Yes", type := TradeType.BUY
    amount := 1, price := 1/2, status := TradeStatus.EXECUTED
    txHash := none, createdAt := 0, executedAt := some 0
    profit := some 0, error := none }

theorem c10_success_rate_total_witness :
    getSuccessRate [] = 0 ∧ getSuccessRate [demoTrade] = 1 := by
  constructor
  · exact (c10_success_rate_total []).2.2.1 rfl
  · have h := (c10_success_rate_total [demoTrade]).2.2.2 (by simp)
    rw [h]
    norm_num [demoTrade, List.filter]

/-! ### Claim C8 -/

/-- Claim C8.  Dry-run frame property: with the trading-enabled flag false,
executeTrade returns exactly one synthetic Executed trade, leaves the risk
ledger state (positions and total exposure) untouched, and leaves the
pending and completed trade sets untouched.  The statement quantifies over
every opportunity and every prior state, in particular over opportunities
that are already expired and over executors whose pending set is full: the
dry-run branch returns before the expiry and capacity checks. -/
theorem c8_dry_run_frame (sys : SystemState)
    (opportunity : ArbitrageOpportunity) (now : ℕ) (oracle : ℕ → Bool) :
    (systemExecuteTrade false sys opportunity now oracle).2 =
      [simulateTrade opportunity now sys.exec.nextId] ∧
    (simulateTrade opportunity now sys.exec.nextId).status =
      TradeStatus.EXECUTED ∧
    (systemExecuteTrade false sys opportunity now oracle).1.risk = sys.risk ∧
    getTotalExposure
        (systemExecuteTrade false sys opportunity now oracle).1.risk =
      getTotalExposure sys.risk ∧
    (systemExecuteTrade false sys opportunity now oracle).1.exec.pendingTrades =
      sys.exec.pendingTrades ∧
    (systemExecuteTrade false sys opportunity now oracle).1.exec.completedTrades =
      sys.exec.completedTrades := by
  simp [systemExecuteTrade, executeTrade, simulateTrade]

/-! ### Claim C4 -/

/-- A concrete mispricing opportunity used to exercise the executor failure
path: unexpired, two legs. -/
def c4Opportunity : ArbitrageOpportunity :=
  { marketId := "m", type := ArbitrageType.MISPRICING
    buyOutcome := "Yes", sellOutcome := "Yes"
    buyPrice := 1/2, sellPrice := 11/20
    expectedProfit := 1/20, profitPercentage := 1/10, confidence := 9/10
    timestamp := 0, expiresAt := some 10000, requiredCapital := 1/2
    estimatedSlippage := 1/1000, riskScore := 1/10 }

/-- Claim C4 (code-bug evaluation).  A leg whose first submission fails is left in
pendingTrades with status Failed: the retry branch of executeTrade only
logs, so the trade is neither re-submitted nor moved to completedTrades,
and the retry counter stops at one.  With both legs of a fresh mispricing
trade failing, executeTrade returns no executed trades, completes nothing,
and strands both legs in the pending set - the claimed retry-then-finalize
behaviour never happens because no code path re-submits a failed leg. -/
theorem c4_failed_leg_stranded :
    (executeTrade true initialExecState c4Opportunity 0 (fun _ => false)).2 = [] ∧
    (executeTrade true initialExecState c4Opportunity 0
        (fun _ => false)).1.completedTrades = [] ∧
    ((executeTrade true initialExecState c4Opportunity 0
        (fun _ => false)).1.pendingTrades.map fun t => (t.id, t.status)) =
      [(0, TradeStatus.FAILED), (1, TradeStatus.FAILED)] ∧
    (executeTrade true initialExecState c4Opportunity 0
        (fun _ => false)).1.retryCount = [(0, 1), (1, 1)] := by
  refine ⟨?_, ?_, ?_, ?_⟩ <;>
    simp [executeTrade, initialExecState, c4Opportunity, execLegs, processLeg,
      executeIndividualTrade, createMispricingTrades, shouldRetry, mapLookup,
      mapSet, maxPendingTrades, maxRetries]

/-! ### History lemmas for the tracker -/

/-- The pure history transition of one updateMarket call on an already
tracked market: append the snapshot, shift the oldest out when the capacity
is exceeded. -/
def histStep (h : List (List MarketPrice)) (prices : List MarketPrice) :
    List (List MarketPrice) :=
  let appended := h ++ [prices]
  if maxHistoryLength < appended.length then appended.tail else appended

/-- The retained history of a market inside a tracker map ([] when the
market is not tracked). -/
def histOf (states : List (String × MarketState)) (id : String) :
    List (List MarketPrice) :=
  match mapLookup id states with
  | some st => st.priceHistory
  | none => []

theorem histOf_updateMarket (states : List (String × MarketState))
    (market : Market) (prices : List MarketPrice) (now : ℕ) :
    histOf (updateMarket states market prices now).1 market.id =
      histStep (histOf states market.id) prices := by
  unfold histOf updateMarket
  cases h : mapLookup market.id states with
  | none => simp [h, mapLookup_mapSet, histStep, maxHistoryLength]
  | some ex => simp [h, mapLookup_mapSet, histStep]

theorem histOf_applyUpdates (market : Market) :
    ∀ (updates : List (List MarketPrice × ℕ))
      (states : List (String × MarketState)),
      histOf (updates.foldl
          (fun ss u => (updateMarket ss market u.1 u.2).1) states) market.id =
        (updates.map Prod.fst).foldl histStep (histOf states market.id)
  | [], states => by simp
  | u :: rest, states => by
    rw [List.foldl_cons, histOf_applyUpdates market rest, List.map_cons,
      List.foldl_cons, histOf_updateMarket]


theorem foldl_histStep_suffix :
    ∀ (snaps : List (List MarketPrice)) (h0 : List (List MarketPrice)),
      h0.length ≤ maxHistoryLength →
      snaps.foldl histStep h0 =
        (h0 ++ snaps).drop ((h0 ++ snaps).length - maxHistoryLength) := by
  have hM : maxHistoryLength = 100 := rfl
  intro snaps
  induction snaps using List.reverseRecOn with
  | nil =>
    intro h0 hlen
    simp [Nat.sub_eq_zero_of_le hlen]
  | append_singleton snaps p ih =>
    intro h0 hlen
    rw [List.foldl_append, List.foldl_cons, List.foldl_nil, ih h0 hlen]
    set l := h0 ++ snaps with hl
    have hdroplen : (l.drop (l.length - maxHistoryLength)).length =
        l.length - (l.length - maxHistoryLength) := List.length_drop _ _
    have hgoalshape : h0 ++ (snaps ++ [p]) = l ++ [p] := by
      rw [hl, List.append_assoc]
    unfold histStep
    rw [hgoalshape]
    by_cases hcap : maxHistoryLength < (l.drop (l.length - maxHistoryLength) ++ [p]).length
    · have hcap2 : maxHistoryLength < l.length - (l.length - maxHistoryLength) + 1 := by
        rw [List.length_append, hdroplen] at hcap
        simpa using hcap
      have hlong : maxHistoryLength ≤ l.length := by omega
      have hne : l.drop (l.length - maxHistoryLength) ≠ [] := by
        intro hnil
        rw [hnil] at hdroplen
        simp at hdroplen
        omega
      rw [if_pos hcap]
      obtain ⟨c, cs, hcons⟩ := List.exists_cons_of_ne_nil hne
      have htail : (l.drop (l.length - maxHistoryLength) ++ [p]).tail =
          (l.drop (l.length - maxHistoryLength)).tail ++ [p] := by
        rw [hcons]; rfl
      rw [htail, List.tail_drop]
      have harith : (l ++ [p]).length - maxHistoryLength =
          l.length - maxHistoryLength + 1 := by
        rw [List.length_append]
        simp only [List.length_singleton]
        omega
      have hcond : l.length - maxHistoryLength + 1 ≤ l.length := by omega
      rw [harith]
      conv_rhs => rw [List.drop_append_of_le_length hcond]
    · rw [if_neg hcap]
      have hcap2 : ¬ maxHistoryLength < l.length - (l.length - maxHistoryLength) + 1 := by
        rw [List.length_append, hdroplen] at hcap
        simpa using hcap
      have hshort : l.length < maxHistoryLength := by omega
      have h1 : l.length - maxHistoryLength = 0 := Nat.sub_eq_zero_of_le (le_of_lt hshort)
      have h2 : (l ++ [p]).length - maxHistoryLength = 0 := by
        rw [List.length_append]
        simp only [List.length_singleton]
        omega
      rw [h1, h2, List.drop_zero, List.drop_zero]

theorem lookup_updateMarket (states : List (String × MarketState))
    (market : Market) (prices : List MarketPrice) (now : ℕ) :
    mapLookup market.id (updateMarket states market prices now).1 =
      some (updateMarket states market prices now).2 := by
  unfold updateMarket
  cases h : mapLookup market.id states with
  | none => simp [h, mapLookup_mapSet]
  | some ex => simp [h, mapLookup_mapSet]

/-! ### Claim C6 -/

/-- Claim C6.  History eviction: for every sequence of updateMarket calls for one
market starting from the fresh tracker, the retained priceHistory is
exactly the suffix of the pushed snapshots of length at most the capacity
(100): the length never exceeds the capacity and, when a new snapshot would
exceed it, the oldest snapshot is removed first, preserving FIFO order
among the survivors. -/
theorem c6_history_eviction (market : Market)
    (updates : List (List MarketPrice × ℕ)) (h : updates ≠ []) :
    ∃ st, mapLookup market.id (applyUpdates market updates) = some st ∧
      st.priceHistory =
        (updates.map Prod.fst).drop
          ((updates.map Prod.fst).length - maxHistoryLength) ∧
      st.priceHistory.length ≤ maxHistoryLength := by
  obtain ⟨us, u, hconcat⟩ := List.eq_nil_or_concat updates |>.resolve_left h
  rw [List.concat_eq_append] at hconcat
  subst hconcat
  have hfold : applyUpdates market (us ++ [u]) =
      (updateMarket (us.foldl
        (fun ss v => (updateMarket ss market v.1 v.2).1) []) market u.1 u.2).1 := by
    unfold applyUpdates
    rw [List.foldl_append, List.foldl_cons, List.foldl_nil]
  have hlook : mapLookup market.id (applyUpdates market (us ++ [u])) =
      some (updateMarket (us.foldl
        (fun ss v => (updateMarket ss market v.1 v.2).1) []) market u.1 u.2).2 := by
    rw [hfold]
    exact lookup_updateMarket _ _ _ _
  have hhist : (updateMarket (us.foldl
      (fun ss v => (updateMarket ss market v.1 v.2).1) []) market u.1 u.2).2.priceHistory =
      ((us ++ [u]).map Prod.fst).drop
        (((us ++ [u]).map Prod.fst).length - maxHistoryLength) := by
    have hh := histOf_applyUpdates market (us ++ [u]) []
    unfold applyUpdates at hh
    rw [show histOf ((us ++ [u]).foldl
        (fun ss v => (updateMarket ss market v.1 v.2).1) []) market.id =
          (updateMarket (us.foldl
            (fun ss v => (updateMarket ss market v.1 v.2).1) []) market u.1 u.2).2.priceHistory from by
      rw [List.foldl_append, List.foldl_cons, List.foldl_nil]
      unfold histOf
      rw [lookup_updateMarket]] at hh
    rw [hh, foldl_histStep_suffix _ _ (by simp [histOf, mapLookup, maxHistoryLength])]
    simp [histOf, mapLookup]
  refine ⟨_, hlook, hhist, ?_⟩
  rw [hhist, List.length_drop]
  omega

/-- A concrete market for witnesses. -/
def demoMarket : Market :=
  { id := "m", question := "q", description := "", endDate := 0
    outcomes := ["Yes"], active := true, volume := 0, liquidity := 0 }

/-- A concrete quote with lastPrice 0. -/
def demoQuote0 : MarketPrice :=
  { marketId := "m", outcome := "Yes", bidPrice := 0, askPrice := 0
    lastPrice := 0, timestamp := 0 }

/-- A concrete quote with lastPrice 1. -/
def demoQuote1 : MarketPrice :=
  { marketId := "m", outcome := "Yes", bidPrice := 0, askPrice := 0
    lastPrice := 1, timestamp := 1 }

/-- Witness for C6: two updates of one market through the tracker. -/
theorem c6_history_eviction_witness :
    ∃ st, mapLookup demoMarket.id
        (applyUpdates demoMarket [([demoQuote0], 0), ([demoQuote1], 1)]) = some st ∧
      st.priceHistory =
        (([([demoQuote0], 0), ([demoQuote1], 1)].map Prod.fst)).drop
          ((([([demoQuote0], 0), ([demoQuote1], 1)].map Prod.fst)).length -
            maxHistoryLength) ∧
      st.priceHistory.length ≤ maxHistoryLength :=
  c6_history_eviction demoMarket [([demoQuote0], 0), ([demoQuote1], 1)] (by simp)

/-! ### Volatility lemmas -/

theorem allLastPrices_eq_flat (priceHistory : List (List MarketPrice)) :
    allLastPrices priceHistory = flatLastPrices priceHistory := by
  unfold allLastPrices flatLastPrices
  suffices h : ∀ (hs : List (List MarketPrice)) (acc : List ℚ),
      hs.foldl (fun allPrices snapshot =>
        allPrices ++ snapshot.map fun p => p.lastPrice) acc =
        acc ++ (hs.map fun snapshot => snapshot.map fun p => p.lastPrice).flatten by
    simpa using h priceHistory []
  intro hs
  induction hs with
  | nil => intro acc; simp
  | cons s rest ih =>
    intro acc
    rw [List.foldl_cons, ih]
    simp

theorem foldl_add_id (l : List ℚ) (a : ℚ) :
    l.foldl (fun s p => s + p) a = a + l.sum := by
  have h := foldl_add_map (fun p : ℚ => p) l a
  simpa using h

/-- The code's variance computation agrees with the population variance of
the flattened lastPrice sample whenever at least two snapshots are
retained. -/
theorem calcVolSq_eq_popVariance (priceHistory : List (List MarketPrice))
    (h : 2 ≤ priceHistory.length) :
    calculateVolatilitySq priceHistory =
      populationVariance (flatLastPrices priceHistory) := by
  unfold calculateVolatilitySq populationVariance
  rw [if_neg (by omega)]
  rw [allLastPrices_eq_flat]
  simp only [foldl_add_map, foldl_add_id, zero_add, List.map_id, List.map_id']

/-! ### Claim C7 -/

/-- Claim C7 (amended).  On the first observation of a market the stored
(squared) volatility is exactly 0; on any update whose retained history has
at least two snapshots, the stored squared volatility equals the population
variance (divisor N, not the Bessel-corrected N-1 of a sample standard
deviation) of all lastPrice values flattened across the retained snapshots
and outcomes.  Because the source stores Math.sqrt of this value and the
square root is injective on nonnegative reals, the same statements hold of
the volatility itself with population standard deviation in place of
population variance. -/
theorem c7_volatility_amended (states : List (String × MarketState))
    (market : Market) (prices : List MarketPrice) (now : ℕ) :
    (mapLookup market.id states = none →
      (updateMarket states market prices now).2.volatilitySq = 0) ∧
    (2 ≤ (updateMarket states market prices now).2.priceHistory.length →
      (updateMarket states market prices now).2.volatilitySq =
        populationVariance
          (flatLastPrices (updateMarket states market prices now).2.priceHistory)) := by
  constructor
  · intro hnone
    unfold updateMarket
    rw [hnone]
  · intro hlen
    rcases hsome : mapLookup market.id states with _ | ex
    · exfalso
      unfold updateMarket at hlen
      rw [hsome] at hlen
      simp at hlen
    · have hproj : (updateMarket states market prices now).2.volatilitySq =
          calculateVolatilitySq (updateMarket states market prices now).2.priceHistory := by
        unfold updateMarket
        rw [hsome]
      rw [hproj]
      exact calcVolSq_eq_popVariance _ hlen

/-- Counterexample for C7: two single-outcome snapshots with lastPrice 0
then 1.  The stored squared volatility is 1/4 (population variance), while
the squared sample standard deviation of the same flattened values is 1/2;
the square root being injective on nonnegatives, the stored volatility is
not the sample standard deviation claimed. -/
theorem c7_volatility_counterexample :
    2 ≤ (updateMarket (applyUpdates demoMarket [([demoQuote0], 0)])
          demoMarket [demoQuote1] 1).2.priceHistory.length ∧
    (updateMarket (applyUpdates demoMarket [([demoQuote0], 0)])
        demoMarket [demoQuote1] 1).2.volatilitySq = 1/4 ∧
    sampleVariance (flatLastPrices
        (updateMarket (applyUpdates demoMarket [([demoQuote0], 0)])
          demoMarket [demoQuote1] 1).2.priceHistory) = 1/2 ∧
    (1/4 : ℚ) ≠ 1/2 := by
  have hmap : applyUpdates demoMarket [([demoQuote0], 0)] =
      (updateMarket [] demoMarket [demoQuote0] 0).1 := by
    unfold applyUpdates
    simp
  refine ⟨?_, ?_, ?_, by norm_num⟩ <;>
    rw [hmap] <;>
    simp [updateMarket, mapLookup, mapSet, maxHistoryLength,
      calculateVolatilitySq, allLastPrices, flatLastPrices, sampleVariance,
      calculateAverageSpread, demoMarket, demoQuote0, demoQuote1] <;>
    norm_num

/-- Witness for C7: the first observation of a market, and a second update
giving a two-snapshot history. -/
theorem c7_volatility_amended_witness :
    (updateMarket [] demoMarket [demoQuote0] 0).2.volatilitySq = 0 ∧
    (updateMarket (applyUpdates demoMarket [([demoQuote0], 0)])
        demoMarket [demoQuote1] 1).2.volatilitySq =
      populationVariance (flatLastPrices
        (updateMarket (applyUpdates demoMarket [([demoQuote0], 0)])
          demoMarket [demoQuote1] 1).2.priceHistory) := by
  constructor
  · exact (c7_volatility_amended [] demoMarket [demoQuote0] 0).1 rfl
  · apply (c7_volatility_amended _ demoMarket [demoQuote1] 1).2
    have hmap : applyUpdates demoMarket [([demoQuote0], 0)] =
        (updateMarket [] demoMarket [demoQuote0] 0).1 := by
      unfold applyUpdates
      simp
    rw [hmap]
    simp [updateMarket, mapLookup, mapSet, maxHistoryLength,
      calculateAverageSpread, calculateVolatilitySq, allLastPrices,
      demoMarket, demoQuote0, demoQuote1]

/-! ### Detector lemmas -/

/-- The fields of an opportunity that the filter pipeline and the duplicate
test read: market, strategy, profit percentage, confidence, slippage. -/
def coreOf (o : ArbitrageOpportunity) : String × ArbitrageType × ℚ × ℚ × ℚ :=
  (o.marketId, o.type, o.profitPercentage, o.confidence, o.estimatedSlippage)

theorem isDuplicate_iff (recent : List ArbitrageOpportunity)
    (o : ArbitrageOpportunity) :
    isDuplicate recent o = true ↔
      ∃ r ∈ recent, r.marketId = o.marketId ∧ r.type = o.type ∧
        |r.profitPercentage - o.profitPercentage| < 0.001 := by
  unfold isDuplicate
  simp

theorem keepOpp_iff (cfg : BotConfig) (recent : List ArbitrageOpportunity)
    (o : ArbitrageOpportunity) :
    keepOpp cfg recent o = true ↔
      cfg.minProfitThreshold ≤ o.profitPercentage ∧
      minConfidence ≤ o.confidence ∧
      o.estimatedSlippage ≤ cfg.maxSlippage ∧
      isDuplicate recent o = false := by
  unfold keepOpp
  simp [not_lt, Bool.and_eq_true, Bool.not_eq_true', and_assoc]

theorem mem_cleanup (l : List ArbitrageOpportunity) (t : ℕ)
    (o : ArbitrageOpportunity) :
    o ∈ cleanupOldOpportunities l t ↔
      o ∈ l ∧ t - o.timestamp ≤ opportunityTTL := by
  unfold cleanupOldOpportunities
  rw [List.mem_filter]
  simp [not_lt]

/-- The binary branch of detectComplementaryArbitrage, written out. -/
theorem detectComplementary_pair (cfg : BotConfig) (p0 p1 : MarketPrice)
    (now : ℕ) (hcost : askSum [p0, p1] < 1) :
    detectComplementaryArbitrage cfg p0.marketId [p0, p1] now = some
      { marketId := p0.marketId
        type := ArbitrageType.COMPLEMENTARY
        buyOutcome := p0.outcome ++ " + " ++ p1.outcome
        sellOutcome := "N/A"
        buyPrice := askSum [p0, p1]
        sellPrice := 1
        expectedProfit := 1 - askSum [p0, p1]
        profitPercentage := (1 - askSum [p0, p1]) / askSum [p0, p1]
        confidence := calculateConfidence (avgSpreadOf [p0, p1]) [p0, p1]
        timestamp := now
        expiresAt := some (now + 30000)
        requiredCapital := askSum [p0, p1]
        estimatedSlippage := avgSpreadOf [p0, p1] / 2
        riskScore := calculateRiskScore cfg (askSum [p0, p1])
          (avgSpreadOf [p0, p1]) [p0, p1] } := by
  simp [detectComplementaryArbitrage, hcost, joinPlus]

/-- Membership in the returned list of detectOpportunities from membership
among the strategy candidates plus passing the filter pipeline. -/
theorem mem_detectOpportunities_of (cfg : BotConfig)
    (recent : List ArbitrageOpportunity) (p0 : MarketPrice)
    (rest : List MarketPrice) (now : ℕ) (o : ArbitrageOpportunity)
    (hc : o ∈ strategyCandidates cfg p0.marketId (p0 :: rest) now)
    (hk : keepOpp cfg recent o = true) :
    o ∈ (detectOpportunities cfg recent (p0 :: rest) now).1 := by
  simp only [detectOpportunities]
  rw [List.mem_mergeSort, List.mem_filter]
  exact ⟨hc, hk⟩

/-! ### Claim C1 -/

/-- Claim C1 (amended).  For every binary quote pair whose ask prices sum below
one, detectOpportunities returns a Complementary opportunity for that
market with expectedProfit = 1 - totalCost and profitPercentage =
(1 - totalCost)/totalCost, provided the candidate passes the uniform filter
pipeline: profitPercentage at least the configured minimum, confidence at
least minConfidence (0.6), estimated slippage at most the configured
maximum, and no still-remembered opportunity of the same market and
strategy with profitPercentage within 0.001. -/
theorem c1_complementary_detect_amended (cfg : BotConfig)
    (recent : List ArbitrageOpportunity) (p0 p1 : MarketPrice) (now : ℕ)
    (hcost : askSum [p0, p1] < 1)
    (hpct : cfg.minProfitThreshold ≤ (1 - askSum [p0, p1]) / askSum [p0, p1])
    (hconf : minConfidence ≤ calculateConfidence (avgSpreadOf [p0, p1]) [p0, p1])
    (hslip : avgSpreadOf [p0, p1] / 2 ≤ cfg.maxSlippage)
    (hdup : ∀ r ∈ recent, ¬(r.marketId = p0.marketId ∧
      r.type = ArbitrageType.COMPLEMENTARY ∧
      |r.profitPercentage - (1 - askSum [p0, p1]) / askSum [p0, p1]| < 0.001)) :
    ∃ o ∈ (detectOpportunities cfg recent [p0, p1] now).1,
      o.type = ArbitrageType.COMPLEMENTARY ∧ o.marketId = p0.marketId ∧
      o.expectedProfit = 1 - askSum [p0, p1] ∧
      o.profitPercentage = (1 - askSum [p0, p1]) / askSum [p0, p1] := by
  have hdet := detectComplementary_pair cfg p0 p1 now hcost
  refine ⟨{ marketId := p0.marketId
            type := ArbitrageType.COMPLEMENTARY
            buyOutcome := p0.outcome ++ " + " ++ p1.outcome
            sellOutcome := "N/A"
            buyPrice := askSum [p0, p1]
            sellPrice := 1
            expectedProfit := 1 - askSum [p0, p1]
            profitPercentage := (1 - askSum [p0, p1]) / askSum [p0, p1]
            confidence := calculateConfidence (avgSpreadOf [p0, p1]) [p0, p1]
            timestamp := now
            expiresAt := some (now + 30000)
            requiredCapital := askSum [p0, p1]
            estimatedSlippage := avgSpreadOf [p0, p1] / 2
            riskScore := calculateRiskScore cfg (askSum [p0, p1])
              (avgSpreadOf [p0, p1]) [p0, p1] }, ?_, rfl, rfl, rfl, rfl⟩
  apply mem_detectOpportunities_of
  · unfold strategyCandidates
    rw [hdet]
    simp
  · rw [keepOpp_iff]
    refine ⟨hpct, hconf, hslip, ?_⟩
    rw [Bool.eq_false_iff]
    intro htrue
    rw [isDuplicate_iff] at htrue
    obtain ⟨r, hr, hmatch⟩ := htrue
    exact hdup r hr hmatch

/-- A witness quote pair for C1 (Yes at bid 0.47 ask 0.48, No at bid 0.48
ask 0.49; total cost 0.97). -/
def wq0 : MarketPrice :=
  { marketId := "m", outcome := "Yes", bidPrice := 0.47, askPrice := 0.48
    lastPrice := 0.47, timestamp := 0 }

/-- Second witness quote for C1. -/
def wq1 : MarketPrice :=
  { marketId := "m", outcome := "No", bidPrice := 0.48, askPrice := 0.49
    lastPrice := 0.49, timestamp := 0 }

theorem c1_complementary_detect_amended_witness :
    ∃ o ∈ (detectOpportunities defaultConfig [] [wq0, wq1] 0).1,
      o.type = ArbitrageType.COMPLEMENTARY ∧ o.marketId = wq0.marketId ∧
      o.expectedProfit = 1 - askSum [wq0, wq1] ∧
      o.profitPercentage = (1 - askSum [wq0, wq1]) / askSum [wq0, wq1] := by
  apply c1_complementary_detect_amended defaultConfig [] wq0 wq1 0
  · norm_num [askSum, wq0, wq1]
  · norm_num [askSum, wq0, wq1, defaultConfig]
  · norm_num [askSum, avgSpreadOf, calculateConfidence, minConfidence, wq0, wq1]
  · norm_num [avgSpreadOf, wq0, wq1, defaultConfig]
  · intro r hr
    simp at hr

/-- A binary quote pair whose ask prices sum to 0.997: a genuine
complementary-arbitrage condition whose profit percentage (about 0.3
percent) is below the default 2 percent threshold. -/
def cq0 : MarketPrice :=
  { marketId := "m", outcome := "Yes", bidPrice := 0.49, askPrice := 0.497
    lastPrice := 0.49, timestamp := 0 }

/-- Second quote of the thin-margin pair. -/
def cq1 : MarketPrice :=
  { marketId := "m", outcome := "No", bidPrice := 0.49, askPrice := 0.5
    lastPrice := 0.49, timestamp := 0 }

/-- Counterexample for C1 as stated: a binary market with ask sum 0.997 <
1.0 on which detectOpportunities (fresh detector, default configuration)
returns no opportunity at all - the complementary candidate is rejected by
the minimum-profit filter. -/
theorem c1_complementary_detect_counterexample :
    askSum [cq0, cq1] < 1 ∧
    (detectOpportunities defaultConfig [] [cq0, cq1] 0).1 = [] := by
  constructor
  · norm_num [askSum, cq0, cq1]
  · have hcands : strategyCandidates defaultConfig cq0.marketId [cq0, cq1] 0 =
        [{ marketId := cq0.marketId
           type := ArbitrageType.COMPLEMENTARY
           buyOutcome := cq0.outcome ++ " + " ++ cq1.outcome
           sellOutcome := "N/A"
           buyPrice := askSum [cq0, cq1]
           sellPrice := 1
           expectedProfit := 1 - askSum [cq0, cq1]
           profitPercentage := (1 - askSum [cq0, cq1]) / askSum [cq0, cq1]
           confidence := calculateConfidence (avgSpreadOf [cq0, cq1]) [cq0, cq1]
           timestamp := 0
           expiresAt := some 30000
           requiredCapital := askSum [cq0, cq1]
           estimatedSlippage := avgSpreadOf [cq0, cq1] / 2
           riskScore := calculateRiskScore defaultConfig (askSum [cq0, cq1])
             (avgSpreadOf [cq0, cq1]) [cq0, cq1] }] := by
      unfold strategyCandidates
      rw [detectComplementary_pair defaultConfig cq0 cq1 0 (by norm_num [askSum, cq0, cq1])]
      norm_num [detectMispricing, detectTemporalArbitrage, bidSum, cq0, cq1]
    simp only [detectOpportunities]
    rw [hcands]
    have hkeep : keepOpp defaultConfig []
        { marketId := cq0.marketId
          type := ArbitrageType.COMPLEMENTARY
          buyOutcome := cq0.outcome ++ " + " ++ cq1.outcome
          sellOutcome := "N/A"
          buyPrice := askSum [cq0, cq1]
          sellPrice := 1
          expectedProfit := 1 - askSum [cq0, cq1]
          profitPercentage := (1 - askSum [cq0, cq1]) / askSum [cq0, cq1]
          confidence := calculateConfidence (avgSpreadOf [cq0, cq1]) [cq0, cq1]
          timestamp := 0
          expiresAt := some 30000
          requiredCapital := askSum [cq0, cq1]
          estimatedSlippage := avgSpreadOf [cq0, cq1] / 2
          riskScore := calculateRiskScore defaultConfig (askSum [cq0, cq1])
            (avgSpreadOf [cq0, cq1]) [cq0, cq1] } = false := by
      unfold keepOpp
      have : ((1 - askSum [cq0, cq1]) / askSum [cq0, cq1] <
          defaultConfig.minProfitThreshold) = True := by
        norm_num [askSum, cq0, cq1, defaultConfig]
      simp [this]
    rw [List.filter_cons, hkeep]
    simp

/-! ### Claim C2 -/

/-- Claim C2 (amended).  For every quote list and every outcome whose bid exceeds
its ask, detectOpportunities produces a Mispricing opportunity for that
outcome with expectedProfit = bid - ask, profitPercentage =
(bid - ask)/ask, confidence 0.9, estimated slippage 0.001, risk score 0.1
and expiry 10 seconds after detection, provided the candidate passes the
uniform filter pipeline: profitPercentage at least the configured minimum,
slippage bound 0.001 at most the configured maximum (its confidence 0.9
always clears the 0.6 floor), and no still-remembered opportunity of the
same market and strategy with profitPercentage within 0.001. -/
theorem c2_mispricing_detect_amended (cfg : BotConfig)
    (recent : List ArbitrageOpportunity) (q0 : MarketPrice)
    (rest : List MarketPrice) (now : ℕ) (p : MarketPrice)
    (hp : p ∈ q0 :: rest)
    (hinv : p.askPrice < p.bidPrice)
    (hpct : cfg.minProfitThreshold ≤ (p.bidPrice - p.askPrice) / p.askPrice)
    (hslip : (0.001 : ℚ) ≤ cfg.maxSlippage)
    (hdup : ∀ r ∈ recent, ¬(r.marketId = q0.marketId ∧
      r.type = ArbitrageType.MISPRICING ∧
      |r.profitPercentage - (p.bidPrice - p.askPrice) / p.askPrice| < 0.001)) :
    ∃ o ∈ (detectOpportunities cfg recent (q0 :: rest) now).1,
      o.type = ArbitrageType.MISPRICING ∧ o.marketId = q0.marketId ∧
      o.buyOutcome = p.outcome ∧ o.sellOutcome = p.outcome ∧
      o.expectedProfit = p.bidPrice - p.askPrice ∧
      o.profitPercentage = (p.bidPrice - p.askPrice) / p.askPrice ∧
      o.confidence = 0.9 ∧ o.estimatedSlippage = 0.001 ∧
      o.riskScore = 0.1 ∧ o.timestamp = now ∧
      o.expiresAt = some (now + 10000) := by
  refine ⟨{ marketId := q0.marketId
            type := ArbitrageType.MISPRICING
            buyOutcome := p.outcome
            sellOutcome := p.outcome
            buyPrice := p.askPrice
            sellPrice := p.bidPrice
            expectedProfit := p.bidPrice - p.askPrice
            profitPercentage := (p.bidPrice - p.askPrice) / p.askPrice
            confidence := 0.9
            timestamp := now
            expiresAt := some (now + 10000)
            requiredCapital := p.askPrice
            estimatedSlippage := 0.001
            riskScore := 0.1 }, ?_, rfl, rfl, rfl, rfl, rfl, rfl, rfl, rfl, rfl, rfl, rfl⟩
  apply mem_detectOpportunities_of
  · unfold strategyCandidates
    refine List.mem_append_left _ (List.mem_append_right _ ?_)
    unfold detectMispricing
    rw [List.mem_filterMap]
    exact ⟨p, hp, by rw [if_pos hinv]⟩
  · rw [keepOpp_iff]
    refine ⟨hpct, by norm_num [minConfidence], hslip, ?_⟩
    rw [Bool.eq_false_iff]
    intro htrue
    rw [isDuplicate_iff] at htrue
    obtain ⟨r, hr, hmatch⟩ := htrue
    exact hdup r hr hmatch

/-- A witness inverted quote for C2 (bid 0.55 above ask 0.50). -/
def wqInv : MarketPrice :=
  { marketId := "m", outcome := "Yes", bidPrice := 0.55, askPrice := 0.5
    lastPrice := 0.5, timestamp := 0 }

theorem c2_mispricing_detect_amended_witness :
    ∃ o ∈ (detectOpportunities defaultConfig [] [wqInv] 0).1,
      o.type = ArbitrageType.MISPRICING ∧ o.marketId = wqInv.marketId ∧
      o.buyOutcome = wqInv.outcome ∧ o.sellOutcome = wqInv.outcome ∧
      o.expectedProfit = wqInv.bidPrice - wqInv.askPrice ∧
      o.profitPercentage = (wqInv.bidPrice - wqInv.askPrice) / wqInv.askPrice ∧
      o.confidence = 0.9 ∧ o.estimatedSlippage = 0.001 ∧
      o.riskScore = 0.1 ∧ o.timestamp = 0 ∧
      o.expiresAt = some 10000 := by
  apply c2_mispricing_detect_amended defaultConfig [] wqInv [] 0 wqInv
  · simp
  · norm_num [wqInv]
  · norm_num [wqInv, defaultConfig]
  · norm_num [defaultConfig]
  · intro r hr
    simp at hr

/-- A quote with a bid only just above its ask: profit percentage 0.2
percent, below the default 2 percent threshold. -/
def mqThin : MarketPrice :=
  { marketId := "m", outcome := "Yes", bidPrice := 0.501, askPrice := 0.5
    lastPrice := 0.5, timestamp := 0 }

/-- Counterexample for C2 as stated: a quote list with an inverted book
(bid 0.501 above ask 0.5) on which detectOpportunities (fresh detector,
default configuration) returns no opportunity at all - the mispricing
candidate is rejected by the minimum-profit filter. -/
theorem c2_mispricing_detect_counterexample :
    mqThin.askPrice < mqThin.bidPrice ∧
    (detectOpportunities defaultConfig [] [mqThin] 0).1 = [] := by
  constructor
  · norm_num [mqThin]
  · have hcands : strategyCandidates defaultConfig mqThin.marketId [mqThin] 0 =
        [{ marketId := mqThin.marketId
           type := ArbitrageType.MISPRICING
           buyOutcome := mqThin.outcome
           sellOutcome := mqThin.outcome
           buyPrice := mqThin.askPrice
           sellPrice := mqThin.bidPrice
           expectedProfit := mqThin.bidPrice - mqThin.askPrice
           profitPercentage := (mqThin.bidPrice - mqThin.askPrice) / mqThin.askPrice
           confidence := 0.9
           timestamp := 0
           expiresAt := some 10000
           requiredCapital := mqThin.askPrice
           estimatedSlippage := 0.001
           riskScore := 0.1 }] := by
      unfold strategyCandidates
      rw [show detectComplementaryArbitrage defaultConfig mqThin.marketId [mqThin] 0 = none from by
        simp [detectComplementaryArbitrage]]
      rw [show detectTemporalArbitrage mqThin.marketId [mqThin] 0 = [] from by
        simp [detectTemporalArbitrage]]
      norm_num [detectMispricing, mqThin, List.filterMap_cons]
    simp only [detectOpportunities]
    rw [hcands]
    have hkeep : keepOpp defaultConfig []
        { marketId := mqThin.marketId
          type := ArbitrageType.MISPRICING
          buyOutcome := mqThin.outcome
          sellOutcome := mqThin.outcome
          buyPrice := mqThin.askPrice
          sellPrice := mqThin.bidPrice
          expectedProfit := mqThin.bidPrice - mqThin.askPrice
          profitPercentage := (mqThin.bidPrice - mqThin.askPrice) / mqThin.askPrice
          confidence := 0.9
          timestamp := 0
          expiresAt := some 10000
          requiredCapital := mqThin.askPrice
          estimatedSlippage := 0.001
          riskScore := 0.1 } = false := by
      unfold keepOpp
      have : ((mqThin.bidPrice - mqThin.askPrice) / mqThin.askPrice <
          defaultConfig.minProfitThreshold) = True := by
        norm_num [mqThin, defaultConfig]
      simp [this]
    rw [List.filter_cons, hkeep]
    simp

/-! ### Candidate correspondence across call times

The numeric fields of every strategy candidate depend only on the quotes;
only timestamp and expiresAt depend on the detection time. -/

theorem comp_core_retime (cfg : BotConfig) (m : String)
    (prices : List MarketPrice) (t1 t2 : ℕ) :
    (detectComplementaryArbitrage cfg m prices t2).map coreOf =
      (detectComplementaryArbitrage cfg m prices t1).map coreOf := by
  unfold detectComplementaryArbitrage
  by_cases h2 : prices.length = 2
  · by_cases hc : askSum prices < 1
    · simp [h2, hc, coreOf]
    · simp [h2, hc]
  · by_cases h3 : 2 < prices.length
    · by_cases hc : askSum prices < 1
      · simp [h2, h3, hc, coreOf]
      · simp [h2, h3, hc]
    · simp [h2, h3]

theorem mispricing_core_retime (m : String) (prices : List MarketPrice)
    (t1 t2 : ℕ) :
    (detectMispricing m prices t2).map coreOf =
      (detectMispricing m prices t1).map coreOf := by
  unfold detectMispricing
  induction prices with
  | nil => rfl
  | cons p rest ih =>
    by_cases hc : p.askPrice < p.bidPrice
    · simp only [List.filterMap_cons, if_pos hc, List.map_cons, ih]
      simp [coreOf]
    · simp only [List.filterMap_cons, if_neg hc, ih]

theorem temporal_core_retime (m : String) (prices : List MarketPrice)
    (t1 t2 : ℕ) :
    (detectTemporalArbitrage m prices t2).map coreOf =
      (detectTemporalArbitrage m prices t1).map coreOf := by
  unfold detectTemporalArbitrage
  by_cases h2 : prices.length = 2
  · by_cases hb : 1 < bidSum prices
    · simp [h2, hb, coreOf]
    · simp [h2, hb]
  · simp [h2]

theorem optionMatch_toList (o? : Option ArbitrageOpportunity) :
    (match o? with
      | some o => [o]
      | none => ([] : List ArbitrageOpportunity)) = o?.toList := by
  cases o? <;> rfl

theorem cands_core_retime (cfg : BotConfig) (m : String)
    (prices : List MarketPrice) (t1 t2 : ℕ) :
    (strategyCandidates cfg m prices t2).map coreOf =
      (strategyCandidates cfg m prices t1).map coreOf := by
  unfold strategyCandidates
  rw [optionMatch_toList, optionMatch_toList]
  rw [List.map_append, List.map_append, List.map_append, List.map_append]
  have h1 : ((detectComplementaryArbitrage cfg m prices t2).toList).map coreOf =
      ((detectComplementaryArbitrage cfg m prices t1).toList).map coreOf := by
    have h := comp_core_retime cfg m prices t1 t2
    cases ha : detectComplementaryArbitrage cfg m prices t2 <;>
      cases hb : detectComplementaryArbitrage cfg m prices t1 <;>
      rw [ha, hb] at h <;> simp_all
  rw [h1, mispricing_core_retime m prices t1 t2,
    temporal_core_retime m prices t1 t2]

theorem cands_timestamp (cfg : BotConfig) (m : String)
    (prices : List MarketPrice) (t : ℕ) :
    ∀ o ∈ strategyCandidates cfg m prices t, o.timestamp = t := by
  intro o ho
  unfold strategyCandidates at ho
  rcases List.mem_append.mp ho with h | htemp
  · rcases List.mem_append.mp h with hcomp | hmis
    · revert hcomp
      unfold detectComplementaryArbitrage
      by_cases h2 : prices.length = 2
      · by_cases hc : askSum prices < 1
        · simp [h2, hc]
          rintro rfl
          rfl
        · simp [h2, hc]
      · by_cases h3 : 2 < prices.length
        · by_cases hc : askSum prices < 1
          · simp [h2, h3, hc]
            rintro rfl
            rfl
          · simp [h2, h3, hc]
        · simp [h2, h3]
    · unfold detectMispricing at hmis
      rw [List.mem_filterMap] at hmis
      obtain ⟨p, _, hif⟩ := hmis
      by_cases hc : p.askPrice < p.bidPrice
      · rw [if_pos hc] at hif
        injection hif with hif
        rw [← hif]
      · rw [if_neg hc] at hif
        exact Option.noConfusion hif
  · revert htemp
    unfold detectTemporalArbitrage
    by_cases h2 : prices.length = 2
    · by_cases hb : 1 < bidSum prices
      · simp [h2, hb]
        rintro rfl
        rfl
      · simp [h2, hb]
    · simp [h2]

/-! ### Claim C3 -/

/-- Claim C3.  Dedup idempotence: a second detectOpportunities call within the
60-second TTL on numerically identical quotes returns the empty list -
every candidate of the second call matches either an opportunity
remembered by the first call (same market, same strategy, identical
profitPercentage, hence within the 0.001 dedup tolerance) or an older
remembered opportunity that blocked the first call too.  The remembered
opportunities present before the first call are assumed fresh at the first
call (as they are for a detector whose store was built by calls within the
TTL, and vacuously for a fresh detector). -/
theorem c3_dedup_second_call_empty (cfg : BotConfig)
    (recent : List ArbitrageOpportunity) (prices : List MarketPrice)
    (t1 t2 : ℕ)
    (hfresh : ∀ o ∈ recent, t1 - o.timestamp ≤ opportunityTTL)
    (_h12 : t1 ≤ t2) (_hwin : t2 - t1 ≤ opportunityTTL) :
    (detectOpportunities cfg
      (detectOpportunities cfg recent prices t1).2 prices t2).1 = [] := by
  cases prices with
  | nil => simp [detectOpportunities]
  | cons p0 rest =>
    simp only [detectOpportunities]
    have hfilter : (strategyCandidates cfg p0.marketId (p0 :: rest) t2).filter
        (keepOpp cfg (cleanupOldOpportunities
          (recent ++ ((strategyCandidates cfg p0.marketId (p0 :: rest) t1).filter
            (keepOpp cfg recent)).mergeSort
              (fun a b => decide (b.profitPercentage ≤ a.profitPercentage))) t1)) = [] := by
      rw [List.filter_eq_nil_iff]
      intro c2 hc2
      rw [keepOpp_iff]
      rintro ⟨hA, hB, hC, hnodup⟩
      have hcore : coreOf c2 ∈
          (strategyCandidates cfg p0.marketId (p0 :: rest) t1).map coreOf := by
        rw [← cands_core_retime cfg p0.marketId (p0 :: rest) t1 t2]
        exact List.mem_map_of_mem coreOf hc2
      obtain ⟨c1, hc1, hcoreeq⟩ := List.mem_map.mp hcore
      have e1 : c1.marketId = c2.marketId := congrArg (fun x => x.1) hcoreeq
      have e2 : c1.type = c2.type := congrArg (fun x => x.2.1) hcoreeq
      have e3 : c1.profitPercentage = c2.profitPercentage :=
        congrArg (fun x => x.2.2.1) hcoreeq
      have e4 : c1.confidence = c2.confidence :=
        congrArg (fun x => x.2.2.2.1) hcoreeq
      have e5 : c1.estimatedSlippage = c2.estimatedSlippage :=
        congrArg (fun x => x.2.2.2.2) hcoreeq
      by_cases hdup1 : isDuplicate recent c1 = true
      · rw [isDuplicate_iff] at hdup1
        obtain ⟨r, hr, hm1, hm2, hm3⟩ := hdup1
        have hdup2 : isDuplicate (cleanupOldOpportunities
            (recent ++ ((strategyCandidates cfg p0.marketId (p0 :: rest) t1).filter
              (keepOpp cfg recent)).mergeSort
                (fun a b => decide (b.profitPercentage ≤ a.profitPercentage))) t1)
            c2 = true := by
          rw [isDuplicate_iff]
          refine ⟨r, ?_, by rw [hm1, e1], by rw [hm2, e2], by rw [← e3]; exact hm3⟩
          rw [mem_cleanup]
          exact ⟨List.mem_append_left _ hr, hfresh r hr⟩
        rw [hdup2] at hnodup
        exact Bool.noConfusion hnodup
      · have hkeep1 : keepOpp cfg recent c1 = true := by
          rw [keepOpp_iff]
          exact ⟨by rw [e3]; exact hA, by rw [e4]; exact hB,
            by rw [e5]; exact hC, Bool.eq_false_iff.mpr hdup1⟩
        have hc1sorted : c1 ∈ ((strategyCandidates cfg p0.marketId (p0 :: rest) t1).filter
            (keepOpp cfg recent)).mergeSort
              (fun a b => decide (b.profitPercentage ≤ a.profitPercentage)) :=
          List.mem_mergeSort.mpr (List.mem_filter.mpr ⟨hc1, hkeep1⟩)
        have hdup2 : isDuplicate (cleanupOldOpportunities
            (recent ++ ((strategyCandidates cfg p0.marketId (p0 :: rest) t1).filter
              (keepOpp cfg recent)).mergeSort
                (fun a b => decide (b.profitPercentage ≤ a.profitPercentage))) t1)
            c2 = true := by
          rw [isDuplicate_iff]
          refine ⟨c1, ?_, e1, e2, by rw [e3, sub_self, abs_zero]; norm_num⟩
          rw [mem_cleanup]
          refine ⟨List.mem_append_right _ hc1sorted, ?_⟩
          rw [cands_timestamp cfg p0.marketId (p0 :: rest) t1 c1 hc1]
          simp
        rw [hdup2] at hnodup
        exact Bool.noConfusion hnodup
    rw [hfilter]
    simp

/-- Witness for C3: the profitable pair of quotes detected at time 0 and
again at time 1000 on a fresh detector. -/
theorem c3_dedup_second_call_empty_witness :
    (detectOpportunities defaultConfig
      (detectOpportunities defaultConfig [] [wq0, wq1] 0).2
      [wq0, wq1] 1000).1 = [] :=
  c3_dedup_second_call_empty defaultConfig [] [wq0, wq1] 0 1000
    (by intro o ho; exact absurd ho (List.not_mem_nil o))
    (by norm_num) (by norm_num [opportunityTTL])

/-! ### Split lemmas for the executor's outcome parsing -/

theorem splitSepAux_step3 (cur : List Char) (c c2 c3 : Char) (r : List Char) :
    splitSepAux cur (c :: c2 :: c3 :: r) =
      if c = ' ' ∧ c2 = '+' ∧ c3 = ' ' then cur.reverse :: splitSepAux [] r
      else splitSepAux (c :: cur) (c2 :: c3 :: r) := rfl

/-- A chunk without a plus sign is never split. -/
theorem splitSepAux_no_plus :
    ∀ (b : List Char) (cur : List Char), '+' ∉ b →
      splitSepAux cur b = [cur.reverse ++ b]
  | [], cur, _ => by simp [splitSepAux]
  | [c], cur, _ => by
    rw [show splitSepAux cur [c] = splitSepAux (c :: cur) [] from rfl]
    simp [splitSepAux]
  | c :: c2 :: rest, cur, hb => by
    have hc2 : c2 ≠ '+' := by
      intro heq
      exact hb (by rw [← heq] at *; exact List.mem_cons_of_mem _ (List.mem_cons_self _ _))
    cases rest with
    | nil =>
      rw [show splitSepAux cur [c, c2] = splitSepAux (c :: cur) [c2] from rfl]
      rw [splitSepAux_no_plus [c2] (c :: cur)
        (by intro hm; exact hb (List.mem_cons_of_mem _ hm))]
      simp
    | cons c3 r3 =>
      rw [splitSepAux_step3, if_neg (by rintro ⟨-, h2, -⟩; exact hc2 h2)]
      rw [splitSepAux_no_plus (c2 :: c3 :: r3) (c :: cur)
        (fun hm => hb (List.mem_cons_of_mem _ hm))]
      simp

/-- Splitting a two-chunk string around the separator, when neither chunk
contains a plus sign. -/
theorem splitSepAux_around :
    ∀ (a : List Char) (b : List Char) (cur : List Char), '+' ∉ a → '+' ∉ b →
      splitSepAux cur (a ++ ' ' :: '+' :: ' ' :: b) =
        (cur.reverse ++ a) :: [b]
  | [], b, cur, _, hb => by
    rw [List.nil_append, splitSepAux_step3, if_pos ⟨rfl, rfl, rfl⟩]
    rw [splitSepAux_no_plus b [] hb]
    simp
  | [c], b, cur, ha, hb => by
    have hc : c ≠ '+' := fun h => ha (by rw [h]; exact List.mem_singleton_self _)
    rw [List.singleton_append, splitSepAux_step3,
      if_neg (by rintro ⟨-, h2, -⟩; exact absurd h2 (by decide))]
    rw [show ((' ' : Char) :: '+' :: ' ' :: b) = [] ++ ' ' :: '+' :: ' ' :: b from rfl]
    rw [splitSepAux_around [] b (c :: cur) (by simp) hb]
    simp
  | c :: c2 :: a3, b, cur, ha, hb => by
    have hc2 : c2 ≠ '+' := by
      intro heq
      exact ha (by rw [← heq] at *; exact List.mem_cons_of_mem _ (List.mem_cons_self _ _))
    have hstep : (c :: c2 :: a3) ++ ' ' :: '+' :: ' ' :: b =
        c :: c2 :: (a3 ++ ' ' :: '+' :: ' ' :: b) := rfl
    rw [hstep]
    cases a3 with
    | nil =>
      rw [show (([] : List Char) ++ ' ' :: '+' :: ' ' :: b) = ' ' :: '+' :: ' ' :: b from rfl]
      rw [splitSepAux_step3, if_neg (by rintro ⟨-, h2, -⟩; exact hc2 h2)]
      rw [show ((c2 : Char) :: ' ' :: '+' :: ' ' :: b) = [c2] ++ ' ' :: '+' :: ' ' :: b from rfl]
      rw [splitSepAux_around [c2] b (c :: cur)
        (fun hm => ha (List.mem_cons_of_mem _ hm)) hb]
      simp
    | cons c3 a4 =>
      rw [show ((c3 :: a4 : List Char) ++ ' ' :: '+' :: ' ' :: b) =
        c3 :: (a4 ++ ' ' :: '+' :: ' ' :: b) from rfl]
      rw [splitSepAux_step3, if_neg (by rintro ⟨-, h2, -⟩; exact hc2 h2)]
      rw [show ((c2 : Char) :: c3 :: (a4 ++ ' ' :: '+' :: ' ' :: b)) =
        (c2 :: c3 :: a4) ++ ' ' :: '+' :: ' ' :: b from rfl]
      rw [splitSepAux_around (c2 :: c3 :: a4) b (c :: cur)
        (fun hm => ha (List.mem_cons_of_mem _ hm)) hb]
      simp

theorem data_join_pair (a b : String) :
    (a ++ " + " ++ b).data = a.data ++ ' ' :: '+' :: ' ' :: b.data := by
  rw [String.data_append, String.data_append, List.append_assoc]
  rfl

theorem jsSplit_join_pair (a b : String) (ha : '+' ∉ a.data)
    (hb : '+' ∉ b.data) : jsSplitPlusSep (a ++ " + " ++ b) = [a, b] := by
  unfold jsSplitPlusSep
  rw [data_join_pair, splitSepAux_around a.data b.data [] ha hb]
  rfl

theorem jsIncludesPlus_join_pair (a b : String) :
    jsIncludesPlus (a ++ " + " ++ b) = true := by
  unfold jsIncludesPlus
  rw [data_join_pair]
  simp

/-! ### Claim C9 -/

/-- Claim C9 (amended).  For every binary Complementary opportunity produced by
the detector (buyOutcome of the form first-outcome, separator, second
outcome), the executor creates exactly 2 Buy trades, one per outcome, each
with amount requiredCapital / 2; the outcome labels are assumed free of
plus signs and whitespace-trimmed, as real outcome labels are.  (For three
or more outcomes the detector labels the opportunity with a single
aggregate string and the executor creates one trade with the whole
capital: see the counterexample.) -/
theorem c9_leg_synthesis_amended (cfg : BotConfig) (p0 p1 : MarketPrice)
    (now execNow startId : ℕ) (o : ArbitrageOpportunity)
    (hdet : detectComplementaryArbitrage cfg p0.marketId [p0, p1] now = some o)
    (h0 : '+' ∉ p0.outcome.data) (h1 : '+' ∉ p1.outcome.data)
    (ht0 : jsTrim p0.outcome = p0.outcome)
    (ht1 : jsTrim p1.outcome = p1.outcome) :
    (createComplementaryTrades o execNow startId).map
        (fun t => (t.outcome, t.type, t.amount)) =
      [(p0.outcome, TradeType.BUY, o.requiredCapital / 2),
       (p1.outcome, TradeType.BUY, o.requiredCapital / 2)] := by
  have hcost : askSum [p0, p1] < 1 := by
    by_contra hnc
    simp [detectComplementaryArbitrage, hnc] at hdet
  rw [detectComplementary_pair cfg p0 p1 now hcost] at hdet
  injection hdet with hdet
  subst hdet
  unfold createComplementaryTrades parseOutcomesPlus
  rw [show ({ marketId := p0.marketId
              type := ArbitrageType.COMPLEMENTARY
              buyOutcome := p0.outcome ++ " + " ++ p1.outcome
              sellOutcome := "N/A"
              buyPrice := askSum [p0, p1]
              sellPrice := 1
              expectedProfit := 1 - askSum [p0, p1]
              profitPercentage := (1 - askSum [p0, p1]) / askSum [p0, p1]
              confidence := calculateConfidence (avgSpreadOf [p0, p1]) [p0, p1]
              timestamp := now
              expiresAt := some (now + 30000)
              requiredCapital := askSum [p0, p1]
              estimatedSlippage := avgSpreadOf [p0, p1] / 2
              riskScore := calculateRiskScore cfg (askSum [p0, p1])
                (avgSpreadOf [p0, p1]) [p0, p1] } :
        ArbitrageOpportunity).buyOutcome = p0.outcome ++ " + " ++ p1.outcome from rfl]
  rw [if_pos (jsIncludesPlus_join_pair p0.outcome p1.outcome)]
  rw [jsSplit_join_pair p0.outcome p1.outcome h0 h1]
  simp [List.enum, ht0, ht1]

theorem c9_leg_synthesis_amended_witness :
    ∃ o, detectComplementaryArbitrage defaultConfig wq0.marketId
        [wq0, wq1] 0 = some o ∧
      (createComplementaryTrades o 5 7).map
          (fun t => (t.outcome, t.type, t.amount)) =
        [(wq0.outcome, TradeType.BUY, o.requiredCapital / 2),
         (wq1.outcome, TradeType.BUY, o.requiredCapital / 2)] := by
  have hdet := detectComplementary_pair defaultConfig wq0 wq1 0
    (by norm_num [askSum, wq0, wq1])
  exact ⟨_, hdet,
    c9_leg_synthesis_amended defaultConfig wq0 wq1 0 5 7 _ hdet
      (by decide) (by decide) (by decide) (by decide)⟩

/-- Quotes of a three-outcome market, asks summing to 0.9. -/
def tq0 : MarketPrice :=
  { marketId := "m", outcome := "A", bidPrice := 0.29, askPrice := 0.3
    lastPrice := 0.3, timestamp := 0 }

/-- Second quote of the three-outcome market. -/
def tq1 : MarketPrice :=
  { marketId := "m", outcome := "B", bidPrice := 0.29, askPrice := 0.3
    lastPrice := 0.3, timestamp := 0 }

/-- Third quote of the three-outcome market. -/
def tq2 : MarketPrice :=
  { marketId := "m", outcome := "C", bidPrice := 0.29, askPrice := 0.3
    lastPrice := 0.3, timestamp := 0 }

/-- Counterexample for C9 as stated: on the three-outcome Complementary
opportunity produced by the detector (buyOutcome is the aggregate string
built from the outcome count, which contains no plus sign), the executor
creates exactly one Buy trade carrying the whole requiredCapital, not
three trades of requiredCapital / 3. -/
theorem c9_leg_synthesis_counterexample :
    ((detectComplementaryArbitrage defaultConfig "m" [tq0, tq1, tq2] 0).map
      fun o => ((createComplementaryTrades o 0 0).length,
        (createComplementaryTrades o 0 0).map fun t => t.amount)) =
      some (1, [askSum [tq0, tq1, tq2]]) ∧ (1 : ℕ) ≠ 3 := by
  refine ⟨?_, by norm_num⟩
  have hdet : detectComplementaryArbitrage defaultConfig "m" [tq0, tq1, tq2] 0 =
      some { marketId := "m"
             type := ArbitrageType.COMPLEMENTARY
             buyOutcome := "All " ++ Nat.repr 3 ++ " outcomes"
             sellOutcome := "N/A"
             buyPrice := askSum [tq0, tq1, tq2]
             sellPrice := 1
             expectedProfit := 1 - askSum [tq0, tq1, tq2]
             profitPercentage := (1 - askSum [tq0, tq1, tq2]) / askSum [tq0, tq1, tq2]
             confidence := calculateConfidence (avgSpreadOf [tq0, tq1, tq2]) [tq0, tq1, tq2]
             timestamp := 0
             expiresAt := some 30000
             requiredCapital := askSum [tq0, tq1, tq2]
             estimatedSlippage := avgSpreadOf [tq0, tq1, tq2] / 2
             riskScore := calculateRiskScore defaultConfig (askSum [tq0, tq1, tq2])
               (avgSpreadOf [tq0, tq1, tq2]) [tq0, tq1, tq2] } := by
    have hc : askSum [tq0, tq1, tq2] < 1 := by norm_num [askSum, tq0, tq1, tq2]
    simp [detectComplementaryArbitrage, hc]
  rw [hdet]
  simp only [Option.map_some']
  norm_num [createComplementaryTrades, parseOutcomesPlus,
    show jsIncludesPlus ("All " ++ Nat.repr 3 ++ " outcomes") = false from by decide,
    List.enum]
